import Mathlib

/-!
Shallow embedding of the CSV quicklook profiler
(`src/day02-mirco-clis/tool3_csv_quicklook.py`).

The profiling pass of `main` (lines 75-154) is embedded as pure state
passing: per-column dictionaries become functions `String → Nat/Bool`
updated pointwise, the row loop becomes a `List.foldl`, and the final
summary computations (`missingPct`, inferred type) become functions of
the accumulated state.  Python `float` division is modelled over `ℚ`.
-/

/-- Characters stripped by Python `str.strip()` with no arguments: the
code points with `str.isspace()` true — ASCII whitespace U+0009-U+000D
and U+0020, the controls U+001C-U+001F, U+0085, U+00A0, U+1680, the
Unicode spaces U+2000-U+200A, U+2028, U+2029, U+202F, U+205F and
U+3000. -/
def isSpaceChar (c : Char) : Bool :=
  let n := c.toNat
  (0x09 ≤ n && n ≤ 0x0d) || n == 0x20 || (0x1c ≤ n && n ≤ 0x1f) ||
    n == 0x85 || n == 0xa0 || n == 0x1680 || (0x2000 ≤ n && n ≤ 0x200a) ||
    n == 0x2028 || n == 0x2029 || n == 0x202f || n == 0x205f || n == 0x3000

/-- Whitespace tolerated around the payload by CPython `float()`
(`Py_UNICODE_ISSPACE`): the `str.isspace()` set without the file,
group, record and unit separator controls U+001C-U+001F (observed:
`float("\x1c1")` raises while `"\x1c".strip()` is empty). -/
def isFloatSpaceChar (c : Char) : Bool :=
  let n := c.toNat
  (0x09 ≤ n && n ≤ 0x0d) || n == 0x20 ||
    n == 0x85 || n == 0xa0 || n == 0x1680 || (0x2000 ≤ n && n ≤ 0x200a) ||
    n == 0x2028 || n == 0x2029 || n == 0x202f || n == 0x205f || n == 0x3000

/-- Model of Python `value.strip()`: drop whitespace from both ends. -/
def pyStrip (s : String) : String :=
  String.mk (((s.data.dropWhile isSpaceChar).reverse.dropWhile isSpaceChar).reverse)

/-- Embeds `is_missing` (source lines 24-32): true iff the value is empty
after stripping whitespace. -/
def is_missing (value : String) : Bool :=
  pyStrip value == ""

/-- True iff the character is an ASCII decimal digit. -/
def isDigitChar (c : Char) : Bool :=
  '0' ≤ c && c ≤ '9'

/-- Consume the continuation of a digit run: further digits, with single
underscores allowed between digits (CPython numeric-literal rule).
Returns the unconsumed remainder. -/
def digitRunCont : List Char → List Char
  | '_' :: c :: rest =>
    if isDigitChar c then digitRunCont rest else '_' :: c :: rest
  | c :: rest =>
    if isDigitChar c then digitRunCont rest else c :: rest
  | [] => []

/-- Consume a nonempty digit run (digits with single embedded
underscores); `none` if the input does not start with a digit,
otherwise the remainder after the run. -/
def digitRun : List Char → Option (List Char)
  | c :: rest => if isDigitChar c then some (digitRunCont rest) else none
  | [] => none

/-- Accept an optional exponent part (`e`/`E`, optional sign, digit run)
that must consume the whole remaining input. -/
def parseExp : List Char → Bool
  | [] => true
  | c :: rest =>
    if c = 'e' || c = 'E' then
      let rest2 := match rest with
        | s :: r => if s = '+' || s = '-' then r else s :: r
        | [] => ([] : List Char)
      match digitRun rest2 with
      | some [] => true
      | _ => false
    else false

/-- Accept an unsigned CPython float literal body: a mantissa
(digits, optional point, optional fractional digits — at least one
digit overall) followed by an optional exponent. -/
def parseMantissaExp (cs : List Char) : Bool :=
  match digitRun cs with
  | some rest =>
    match rest with
    | '.' :: rest2 =>
      match digitRun rest2 with
      | some rest3 => parseExp rest3
      | none => parseExp rest2
    | _ => parseExp rest
  | none =>
    match cs with
    | '.' :: rest2 =>
      match digitRun rest2 with
      | some rest3 => parseExp rest3
      | none => false
    | _ => false

/-- First code points of the aligned runs of ten consecutive Unicode
decimal digits (category `Nd`, digit values 0-9 in order), per the
Unicode data CPython ships: `float()` folds every such digit to its
ASCII counterpart before parsing. -/
def ndDigitStarts : List Nat :=
  [0x30, 0x660, 0x6f0, 0x7c0, 0x966, 0x9e6, 0xa66, 0xae6, 0xb66, 0xbe6,
   0xc66, 0xce6, 0xd66, 0xde6, 0xe50, 0xed0, 0xf20, 0x1040, 0x1090, 0x17e0,
   0x1810, 0x1946, 0x19d0, 0x1a80, 0x1a90, 0x1b50, 0x1bb0, 0x1c40, 0x1c50, 0xa620,
   0xa8d0, 0xa900, 0xa9d0, 0xa9f0, 0xaa50, 0xabf0, 0xff10, 0x104a0, 0x10d30, 0x11066,
   0x110f0, 0x11136, 0x111d0, 0x112f0, 0x11450, 0x114d0, 0x11650, 0x116c0, 0x11730, 0x118e0,
   0x11950, 0x11c50, 0x11d50, 0x11da0, 0x16a60, 0x16ac0, 0x16b50, 0x1d7ce, 0x1d7d8, 0x1d7e2,
   0x1d7ec, 0x1d7f6, 0x1e140, 0x1e2f0, 0x1e950, 0x1fbf0]

/-- Fold a Unicode decimal digit (category `Nd`) to its ASCII digit;
every other character is left unchanged — the digit half of CPython
`_PyUnicode_TransformDecimalAndSpaceToASCII`. -/
def toAsciiDigit (c : Char) : Char :=
  match ndDigitStarts.find? (fun s => s ≤ c.toNat && c.toNat < s + 10) with
  | some s => Char.ofNat (0x30 + (c.toNat - s))
  | none => c

/-- Model of CPython `float(s)` succeeding: fold Unicode decimal digits
to ASCII, drop the whitespace `float` tolerates from both ends, then
accept an optional sign followed by `inf`, `infinity`, `nan`
(case-insensitive) or a numeric literal. -/
def pyFloatValid (s : String) : Bool :=
  let mapped := s.data.map toAsciiDigit
  let stripped := ((mapped.dropWhile isFloatSpaceChar).reverse.dropWhile
    isFloatSpaceChar).reverse
  let cs := match stripped with
    | c :: rest => if c = '+' || c = '-' then rest else c :: rest
    | [] => ([] : List Char)
  let low := cs.map Char.toLower
  if low = "inf".data || low = "infinity".data || low = "nan".data then true
  else parseMantissaExp cs

/-- Embeds `is_number` (source lines 35-47): true iff `float(value)`
succeeds. -/
def is_number (value : String) : Bool :=
  pyFloatValid value

/-- A row as handed to the per-column loop: an association list from
column name to field value, where a key may be present with Python
`None` (`some none` is absent-by-null, `none` is absent-by-key). -/
abbrev Row := List (String × Option String)

/-- Lookup of a key in a row dictionary: `none` if the key is absent,
otherwise the stored (possibly null) value. -/
def rowLookup (row : Row) (c : String) : Option (Option String) :=
  (row.find? (fun p => p.1 == c)).map (fun p => p.2)

/-- Embeds source lines 103-107: `val = row.get(c, "")` followed by
`val = "" if val is None else str(val)` — an absent key and a null
value both coerce to the empty string. -/
def getVal (row : Row) (c : String) : String :=
  match rowLookup row c with
  | none => ""
  | some none => ""
  | some (some s) => s

/-- The three per-column dictionaries of source lines 88-90, as
functions from column name. -/
structure ColStats where
  missing_counts : String → Nat
  numeric_possible : String → Bool
  non_missing_seen : String → Nat

/-- Pointwise update of a column-indexed dictionary. -/
def upd {α : Type} (f : String → α) (c : String) (v : α) : String → α :=
  fun x => if x = c then v else f x

/-- Embeds one iteration of the per-column loop (source lines 102-115)
for column `c`: classify the coerced value as missing or not, and in the
non-missing case re-test numericness only while still possible. -/
def ingestCol (row : Row) (st : ColStats) (c : String) : ColStats :=
  let val := getVal row c
  if is_missing val then
    { st with missing_counts := upd st.missing_counts c (st.missing_counts c + 1) }
  else
    let st1 : ColStats :=
      { st with non_missing_seen := upd st.non_missing_seen c (st.non_missing_seen c + 1) }
    if st1.numeric_possible c && !(is_number (pyStrip val)) then
      { st1 with numeric_possible := upd st1.numeric_possible c false }
    else st1

/-- The mutable state of the reading loop: `row_count`, the captured
preview rows and the per-column statistics. -/
structure ProfState where
  row_count : Nat
  preview_rows : List Row
  stats : ColStats

/-- Embeds one iteration of the row loop (source lines 94-115):
increment the row counter, capture the row while the preview holds
fewer than `head` rows, then run the per-column loop over `columns`. -/
def ingest (head : Nat) (columns : List String) (st : ProfState) (row : Row) : ProfState :=
  { row_count := st.row_count + 1
    preview_rows :=
      if st.preview_rows.length < head then st.preview_rows ++ [row]
      else st.preview_rows
    stats := columns.foldl (ingestCol row) st.stats }

/-- Initial per-column statistics (source lines 88-90): all counts zero,
`numeric_possible` true. -/
def initStats : ColStats :=
  { missing_counts := fun _ => 0
    numeric_possible := fun _ => true
    non_missing_seen := fun _ => 0 }

/-- Initial loop state (source lines 75-76 and 88-90). -/
def initState : ProfState :=
  { row_count := 0, preview_rows := [], stats := initStats }

/-- The whole reading loop: fold `ingest` over the data rows. -/
def runProfiler (head : Nat) (columns : List String) (rows : List Row) : ProfState :=
  rows.foldl (ingest head columns) initState

/-- Embeds the summary computation of source line 147:
`(miss / row_count * 100) if row_count > 0 else 0.0`, over `ℚ`. -/
def missingPct (st : ProfState) (c : String) : ℚ :=
  if st.row_count > 0 then
    (st.stats.missing_counts c : ℚ) / (st.row_count : ℚ) * 100
  else 0

/-- Embeds the type-inference of source lines 149-152. -/
def inferredType (st : ProfState) (c : String) : String :=
  if st.stats.non_missing_seen c = 0 then "empty"
  else if st.stats.numeric_possible c then "numeric" else "text"

/-- Model of `csv.DictReader.fieldnames` at the external boundary:
`none` when the raw stream has no first line at all (empty file),
otherwise the fields of the first line — which is the empty list when
the first line is blank. -/
def fieldnamesOf (rawRows : List (List String)) : Option (List String) :=
  rawRows.head?

/-- The fatal message of source line 83. -/
def emptySchemaMsg : String :=
  "ERROR: Could not read header row (no columns found)."

/-- Embeds the header guard and profiling pass of source lines 82-115:
abort with the fatal message exactly when `reader.fieldnames is None`,
otherwise run the loop over the data rows. -/
def profileMain (head : Nat) (fieldnames : Option (List String)) (rows : List Row) :
    Except String ProfState :=
  match fieldnames with
  | none => Except.error emptySchemaMsg
  | some columns => Except.ok (runProfiler head columns rows)

/-- A non-missing value for column `c` whose stripped form fails
`is_number` — the condition that flips `numeric_possible` (line 114). -/
def failsNumeric (row : Row) (c : String) : Bool :=
  !is_missing (getVal row c) && !is_number (pyStrip (getVal row c))

/-- Heap of row objects, for the reference semantics of
`preview_rows.append(row)` (source line 99): Python appends the object
reference, so preview entries are addresses read back through the heap. -/
abbrev RowHeap := Nat → Row

/-- In-place mutation of the row object stored at address `a`. -/
def updHeap (h : RowHeap) (a : Nat) (r : Row) : RowHeap :=
  fun x => if x = a then r else h x

/-- Embeds source lines 98-99 under reference semantics: while the
preview holds fewer than `head` entries, append the address of the
current row object. -/
def capturePreview (head : Nat) (preview : List Nat) (addr : Nat) : List Nat :=
  if preview.length < head then preview ++ [addr] else preview

/-- Read the captured preview back through the heap (what line 166
prints). -/
def readPreview (h : RowHeap) (preview : List Nat) : List Row :=
  preview.map h

/-- A concrete one-row heap used to exercise the reference semantics. -/
def demoHeap : RowHeap := fun _ => [("a", some "1")]

-- sanity checks on the embedded predicates (mirroring observed CPython
-- behaviour of float() and str.strip())
example : is_number "1_0" = true := by decide
example : is_number "_1" = false := by decide
example : is_number "1_" = false := by decide
example : is_number "1__0" = false := by decide
example : is_number "NaN" = true := by decide
example : is_number "+inf" = true := by decide
example : is_number "Infinity" = true := by decide
example : is_number "1." = true := by decide
example : is_number ".5" = true := by decide
example : is_number "1.e5" = true := by decide
example : is_number "1e" = false := by decide
example : is_number "." = false := by decide
example : is_number "" = false := by decide
example : is_number "1.5_" = false := by decide
example : is_number "1._5" = false := by decide
example : is_number " 1 " = true := by decide
example : is_number "0x1f" = false := by decide
example : is_number "1e+5" = true := by decide
example : is_number "1e_5" = false := by decide
example : is_number "-3.5" = true := by decide
example : is_number "x" = false := by decide
example : is_missing "   " = true := by decide
example : is_missing "" = true := by decide
example : is_missing " x " = false := by decide
example : is_missing "\x1c" = true := by decide
example : is_missing " " = true := by decide
example : is_missing " 　" = true := by decide
example : is_number "\x1c1" = false := by decide
example : is_number " 1 " = true := by decide
example : is_number "１２３" = true := by decide
example : is_number "١٢" = true := by decide
example : is_number "１_２" = true := by decide

/-! ### Characterization of one per-column step -/

/-- One per-column step changes `missing_counts` at `c` by one exactly
when the processed column is `c` and the coerced value is missing. -/
theorem ingestCol_missing (row : Row) (st : ColStats) (c' c : String) :
    (ingestCol row st c').missing_counts c =
      st.missing_counts c + (if c = c' ∧ is_missing (getVal row c) then 1 else 0) := by
  unfold ingestCol
  by_cases hc : c = c'
  · subst hc
    by_cases hm : is_missing (getVal row c)
    · simp [hm, upd]
    · simp [hm]
      split <;> rfl
  · by_cases hm : is_missing (getVal row c')
    · simp [hm, upd, hc]
    · simp [hm, hc]
      split <;> rfl

/-- One per-column step changes `non_missing_seen` at `c` by one exactly
when the processed column is `c` and the coerced value is non-missing. -/
theorem ingestCol_nonmissing (row : Row) (st : ColStats) (c' c : String) :
    (ingestCol row st c').non_missing_seen c =
      st.non_missing_seen c + (if c = c' ∧ ¬ is_missing (getVal row c) then 1 else 0) := by
  unfold ingestCol
  by_cases hc : c = c'
  · subst hc
    by_cases hm : is_missing (getVal row c)
    · simp [hm, upd]
    · simp [hm]
      split <;> simp [upd]
  · by_cases hm : is_missing (getVal row c')
    · simp [hm, upd, hc]
    · simp [hm, hc]
      split <;> simp [upd, hc]

/-- One per-column step turns `numeric_possible` at `c` off exactly when
the processed column is `c` and the value is non-missing and fails the
numeric test; otherwise the flag is unchanged. -/
theorem ingestCol_numposs (row : Row) (st : ColStats) (c' c : String) :
    (ingestCol row st c').numeric_possible c =
      (st.numeric_possible c && !((c == c') && failsNumeric row c)) := by
  unfold ingestCol failsNumeric
  by_cases hc : c = c'
  · subst hc
    by_cases hm : is_missing (getVal row c)
    · simp [hm, upd]
    · simp only [hm]
      by_cases hp : st.numeric_possible c
      · by_cases hn : is_number (pyStrip (getVal row c)) <;> simp [hp, hn, upd, hm]
      · simp only [Bool.not_eq_true] at hp
        simp [hp, upd, hm]
  · have hbeq : (c == c') = false := by
      simpa using hc
    by_cases hm : is_missing (getVal row c')
    · simp [hm, upd, hc, hbeq]
    · simp [hm, hbeq]
      split <;> simp [upd, hc]

/-! ### Characterization of the whole per-column loop -/

/-- Folding the per-column loop over the schema adds to `missing_counts`
at `c` one unit per occurrence of `c` in the schema when the value is
missing. -/
theorem foldl_ingestCol_missing (row : Row) (cols : List String) (st : ColStats) (c : String) :
    (cols.foldl (ingestCol row) st).missing_counts c =
      st.missing_counts c +
        cols.count c * (if is_missing (getVal row c) then 1 else 0) := by
  induction cols generalizing st with
  | nil => simp
  | cons c' cs ih =>
    rw [List.foldl_cons, ih, ingestCol_missing, List.count_cons]
    by_cases hc : c = c'
    · subst hc
      by_cases hm : is_missing (getVal row c) <;> (simp [hm]; try omega)
    · have hcc : ¬ c' = c := fun h => hc h.symm
      simp [hc, hcc]

/-- Folding the per-column loop over the schema adds to
`non_missing_seen` at `c` one unit per occurrence of `c` in the schema
when the value is non-missing. -/
theorem foldl_ingestCol_nonmissing (row : Row) (cols : List String) (st : ColStats) (c : String) :
    (cols.foldl (ingestCol row) st).non_missing_seen c =
      st.non_missing_seen c +
        cols.count c * (if is_missing (getVal row c) then 0 else 1) := by
  induction cols generalizing st with
  | nil => simp
  | cons c' cs ih =>
    rw [List.foldl_cons, ih, ingestCol_nonmissing, List.count_cons]
    by_cases hc : c = c'
    · subst hc
      by_cases hm : is_missing (getVal row c) <;> (simp [hm]; try omega)
    · have hcc : ¬ c' = c := fun h => hc h.symm
      simp [hc, hcc]

/-- Folding the per-column loop over the schema turns `numeric_possible`
at `c` off exactly when `c` occurs in the schema and the value of the
row at `c` is non-missing and non-numeric. -/
theorem foldl_ingestCol_numposs (row : Row) (cols : List String) (st : ColStats) (c : String) :
    (cols.foldl (ingestCol row) st).numeric_possible c =
      (st.numeric_possible c && !(cols.contains c && failsNumeric row c)) := by
  induction cols generalizing st with
  | nil => simp
  | cons c' cs ih =>
    rw [List.foldl_cons, ih, ingestCol_numposs, List.contains_cons]
    by_cases hc : c = c'
    · subst hc
      cases hf : failsNumeric row c <;>
        cases hp : st.numeric_possible c <;> simp [hf, hp]
    · have hbeq : (c == c') = false := by simpa using hc
      have hbeq2 : (c' == c) = false := by
        simpa using fun h => hc h.symm
      simp [hbeq, hbeq2]

/-! ### Characterization of the row loop -/

/-- The row loop increments `row_count` once per row. -/
theorem foldl_ingest_rowcount (head : Nat) (cols : List String) (rows : List Row)
    (st : ProfState) :
    (rows.foldl (ingest head cols) st).row_count = st.row_count + rows.length := by
  induction rows generalizing st with
  | nil => simp
  | cons r rs ih =>
    rw [List.foldl_cons, ih]
    simp [ingest]
    omega

/-- The total row count is the length of the ingested stream. -/
theorem runProfiler_rowcount (head : Nat) (cols : List String) (rows : List Row) :
    (runProfiler head cols rows).row_count = rows.length := by
  unfold runProfiler initState
  rw [foldl_ingest_rowcount]
  simp

/-- The row loop extends the preview with the first rows of the stream,
up to the remaining capacity of the buffer. -/
theorem foldl_ingest_preview (head : Nat) (cols : List String) (rows : List Row)
    (st : ProfState) :
    (rows.foldl (ingest head cols) st).preview_rows =
      st.preview_rows ++ rows.take (head - st.preview_rows.length) := by
  induction rows generalizing st with
  | nil => simp
  | cons r rs ih =>
    rw [List.foldl_cons, ih]
    by_cases hlt : st.preview_rows.length < head
    · have h1 : (ingest head cols st r).preview_rows = st.preview_rows ++ [r] := by
        simp [ingest, hlt]
      rw [h1]
      have h2 : head - st.preview_rows.length = (head - (st.preview_rows.length + 1)) + 1 := by
        omega
      rw [h2, List.take_succ_cons]
      simp
    · have h1 : (ingest head cols st r).preview_rows = st.preview_rows := by
        simp [ingest, hlt]
      rw [h1]
      have h2 : head - st.preview_rows.length = 0 := by omega
      rw [h2]
      simp

/-- The preview buffer ends up as the first `head` rows of the stream. -/
theorem runProfiler_preview (head : Nat) (cols : List String) (rows : List Row) :
    (runProfiler head cols rows).preview_rows = rows.take head := by
  unfold runProfiler initState
  rw [foldl_ingest_preview]
  simp

/-- Over the whole stream, `missing_counts` at `c` counts the missing
values of column `c`, weighted by the multiplicity of `c` in the
schema. -/
theorem foldl_ingest_missing (head : Nat) (cols : List String) (rows : List Row)
    (st : ProfState) (c : String) :
    (rows.foldl (ingest head cols) st).stats.missing_counts c =
      st.stats.missing_counts c +
        cols.count c * rows.countP (fun r => is_missing (getVal r c)) := by
  induction rows generalizing st with
  | nil => simp
  | cons r rs ih =>
    rw [List.foldl_cons, ih]
    have h1 : (ingest head cols st r).stats.missing_counts c =
        st.stats.missing_counts c +
          cols.count c * (if is_missing (getVal r c) then 1 else 0) := by
      simp [ingest, foldl_ingestCol_missing]
    rw [h1, List.countP_cons]
    by_cases hm : is_missing (getVal r c) <;> (simp [hm]; try ring)

/-- Over the whole stream, `non_missing_seen` at `c` counts the
non-missing values of column `c`, weighted by the multiplicity of `c`
in the schema. -/
theorem foldl_ingest_nonmissing (head : Nat) (cols : List String) (rows : List Row)
    (st : ProfState) (c : String) :
    (rows.foldl (ingest head cols) st).stats.non_missing_seen c =
      st.stats.non_missing_seen c +
        cols.count c * rows.countP (fun r => !is_missing (getVal r c)) := by
  induction rows generalizing st with
  | nil => simp
  | cons r rs ih =>
    rw [List.foldl_cons, ih]
    have h1 : (ingest head cols st r).stats.non_missing_seen c =
        st.stats.non_missing_seen c +
          cols.count c * (if is_missing (getVal r c) then 0 else 1) := by
      simp [ingest, foldl_ingestCol_nonmissing]
    rw [h1, List.countP_cons]
    by_cases hm : is_missing (getVal r c) <;> (simp [hm]; try ring)

/-- Over the whole stream, `numeric_possible` at `c` goes false exactly
when `c` is a schema column and some row has a non-missing, non-numeric
value at `c`. -/
theorem foldl_ingest_numposs (head : Nat) (cols : List String) (rows : List Row)
    (st : ProfState) (c : String) :
    (rows.foldl (ingest head cols) st).stats.numeric_possible c =
      (st.stats.numeric_possible c &&
        !(cols.contains c && rows.any (fun r => failsNumeric r c))) := by
  induction rows generalizing st with
  | nil => simp
  | cons r rs ih =>
    rw [List.foldl_cons, ih]
    have h1 : (ingest head cols st r).stats.numeric_possible c =
        (st.stats.numeric_possible c && !(cols.contains c && failsNumeric r c)) := by
      simp [ingest, foldl_ingestCol_numposs]
    rw [h1, List.any_cons]
    cases hf : failsNumeric r c <;> cases hcn : cols.contains c <;>
      cases hp : st.stats.numeric_possible c <;> simp [hf, hcn, hp]

/-- Final form of `numeric_possible` from the initial all-true state. -/
theorem runProfiler_numposs (head : Nat) (cols : List String) (rows : List Row) (c : String) :
    (runProfiler head cols rows).stats.numeric_possible c =
      !(cols.contains c && rows.any (fun r => failsNumeric r c)) := by
  unfold runProfiler
  rw [foldl_ingest_numposs]
  simp [initState, initStats]

/-! ### Claim theorems -/

/-- C1: for every column `c` of the finalized report, the inferred type
is `"empty"` iff `non_missing_seen c = 0`; otherwise it is `"numeric"`
iff `numeric_possible c` is true and `"text"` iff it is false; the three
labels are mutually exclusive and exhaustive over all ingestion
histories. -/
theorem inferredType_classification (head : Nat) (cols : List String) (rows : List Row)
    (c : String) :
    (inferredType (runProfiler head cols rows) c = "empty" ↔
      (runProfiler head cols rows).stats.non_missing_seen c = 0) ∧
    (inferredType (runProfiler head cols rows) c = "numeric" ↔
      ((runProfiler head cols rows).stats.non_missing_seen c ≠ 0 ∧
        (runProfiler head cols rows).stats.numeric_possible c = true)) ∧
    (inferredType (runProfiler head cols rows) c = "text" ↔
      ((runProfiler head cols rows).stats.non_missing_seen c ≠ 0 ∧
        (runProfiler head cols rows).stats.numeric_possible c = false)) ∧
    (inferredType (runProfiler head cols rows) c = "empty" ∨
      inferredType (runProfiler head cols rows) c = "numeric" ∨
      inferredType (runProfiler head cols rows) c = "text") := by
  unfold inferredType
  by_cases h0 : (runProfiler head cols rows).stats.non_missing_seen c = 0
  · simp [h0]
  · by_cases hp : (runProfiler head cols rows).stats.numeric_possible c
    · simp [h0, hp]
    · simp [h0, hp]

/-- C2: for a schema column `c`, `numeric_possible c` ends up false iff
some ingested row has a non-missing value for `c` whose stripped form
fails `is_number`; and the flag is monotone under ingestion: once false
it stays false. -/
theorem numeric_possible_iff_failure (head : Nat) (cols : List String) (rows : List Row)
    (c : String) (hc : c ∈ cols) :
    ((runProfiler head cols rows).stats.numeric_possible c = false ↔
      ∃ row ∈ rows, is_missing (getVal row c) = false ∧
        is_number (pyStrip (getVal row c)) = false) ∧
    (∀ (st : ProfState) (row : Row), st.stats.numeric_possible c = false →
      (ingest head cols st row).stats.numeric_possible c = false) := by
  constructor
  · rw [runProfiler_numposs]
    have hcn : cols.contains c = true := by simpa using hc
    simp [hcn, failsNumeric, List.any_eq_true]
    exact fun x _ _ _ => hc
  · intro st row hfalse
    show (cols.foldl (ingestCol row) st.stats).numeric_possible c = false
    rw [foldl_ingestCol_numposs, hfalse]
    simp

/-- Witness for C2: with schema `["a"]` and the single value `"x"`, the
flag is false. -/
theorem numeric_possible_iff_failure_witness :
    (runProfiler 5 ["a"] [[("a", some "x")]]).stats.numeric_possible "a" = false :=
  ((numeric_possible_iff_failure 5 ["a"] [[("a", some "x")]] "a" (by decide)).1).2
    ⟨[("a", some "x")], by decide, by decide, by decide⟩

/-- C3 counterexample: with the duplicated schema `["a", "a"]` (legal
for a CSV header) and one row, the column loop runs twice for `"a"`, so
`missing_counts + non_missing_seen` is 2 while only 1 row was
ingested. -/
theorem counter_sum_duplicate_schema :
    (runProfiler 0 ["a", "a"] [[("a", some "1")]]).stats.missing_counts "a" +
      (runProfiler 0 ["a", "a"] [[("a", some "1")]]).stats.non_missing_seen "a" = 2 ∧
    (runProfiler 0 ["a", "a"] [[("a", some "1")]]).row_count = 1 := by
  decide

/-- C3 (amended to schemas without duplicate names): for every schema
column `c`, after any ingestion history `missing_counts c +
non_missing_seen c` equals the total row count, and each single ingest
increments the row counter exactly once and exactly one of the two
counters of `c`. -/
theorem missing_plus_nonmissing_eq_rowcount (head : Nat) (cols : List String)
    (rows : List Row) (c : String) (hnd : cols.Nodup) (hc : c ∈ cols) :
    ((runProfiler head cols rows).stats.missing_counts c +
      (runProfiler head cols rows).stats.non_missing_seen c =
        (runProfiler head cols rows).row_count) ∧
    (∀ (st : ProfState) (row : Row),
      (ingest head cols st row).row_count = st.row_count + 1 ∧
      (((ingest head cols st row).stats.missing_counts c = st.stats.missing_counts c + 1 ∧
        (ingest head cols st row).stats.non_missing_seen c = st.stats.non_missing_seen c) ∨
       ((ingest head cols st row).stats.missing_counts c = st.stats.missing_counts c ∧
        (ingest head cols st row).stats.non_missing_seen c =
          st.stats.non_missing_seen c + 1))) := by
  have hcount : cols.count c = 1 := List.count_eq_one_of_mem hnd hc
  constructor
  · unfold runProfiler
    rw [foldl_ingest_missing, foldl_ingest_nonmissing, foldl_ingest_rowcount]
    simp [initState, initStats, hcount]
    induction rows with
    | nil => rfl
    | cons r rs ih =>
      rw [List.countP_cons, List.countP_cons, List.length_cons]
      by_cases hm : is_missing (getVal r c) <;> simp [hm] <;> omega
  · intro st row
    refine ⟨rfl, ?_⟩
    have hm : (ingest head cols st row).stats.missing_counts c =
        st.stats.missing_counts c +
          cols.count c * (if is_missing (getVal row c) then 1 else 0) := by
      show (cols.foldl (ingestCol row) st.stats).missing_counts c = _
      rw [foldl_ingestCol_missing]
    have hn : (ingest head cols st row).stats.non_missing_seen c =
        st.stats.non_missing_seen c +
          cols.count c * (if is_missing (getVal row c) then 0 else 1) := by
      show (cols.foldl (ingestCol row) st.stats).non_missing_seen c = _
      rw [foldl_ingestCol_nonmissing]
    rw [hcount] at hm hn
    by_cases hmiss : is_missing (getVal row c)
    · left
      rw [hm, hn]
      simp [hmiss]
    · right
      rw [hm, hn]
      simp [hmiss]

/-- Witness for C3 at a concrete run: schema `["a"]`, one missing and
one non-missing value. -/
theorem missing_plus_nonmissing_eq_rowcount_witness :
    (runProfiler 5 ["a"] [[("a", some "")], [("a", some "1")]]).stats.missing_counts "a" +
      (runProfiler 5 ["a"] [[("a", some "")], [("a", some "1")]]).stats.non_missing_seen "a" =
        (runProfiler 5 ["a"] [[("a", some "")], [("a", some "1")]]).row_count :=
  (missing_plus_nonmissing_eq_rowcount 5 ["a"] [[("a", some "")], [("a", some "1")]] "a"
    (by decide) (by decide)).1

/-- C4: for every non-negative `head` and finite row stream, the final
preview buffer is exactly the first `head` rows of the stream in order,
its length is `min head totalRows`, and a full buffer is never appended
to by a further ingest. -/
theorem preview_is_bounded_take (head : Nat) (cols : List String) (rows : List Row) :
    (runProfiler head cols rows).preview_rows = rows.take head ∧
    (runProfiler head cols rows).preview_rows.length =
      min head (runProfiler head cols rows).row_count ∧
    (∀ (st : ProfState) (row : Row), head ≤ st.preview_rows.length →
      (ingest head cols st row).preview_rows = st.preview_rows) := by
  refine ⟨runProfiler_preview head cols rows, ?_, ?_⟩
  · rw [runProfiler_preview, runProfiler_rowcount, List.length_take]
  · intro st row hfull
    simp [ingest, Nat.not_lt.mpr hfull]

/-- Witness for C4: with `head = 1` and two rows, the preview is the
first row only, and ingesting into the full buffer leaves it unchanged. -/
theorem preview_is_bounded_take_witness :
    (runProfiler 1 ["a"] [[("a", some "1")], [("a", some "2")]]).preview_rows =
      List.take 1 [[("a", some "1")], [("a", some "2")]] ∧
    (ingest 1 ["a"] (runProfiler 1 ["a"] [[("a", some "1")], [("a", some "2")]])
        [("a", some "3")]).preview_rows =
      (runProfiler 1 ["a"] [[("a", some "1")], [("a", some "2")]]).preview_rows :=
  ⟨(preview_is_bounded_take 1 ["a"] [[("a", some "1")], [("a", some "2")]]).1,
    (preview_is_bounded_take 1 ["a"] [[("a", some "1")], [("a", some "2")]]).2.2
      (runProfiler 1 ["a"] [[("a", some "1")], [("a", some "2")]]) [("a", some "3")]
      (by decide)⟩

/-- C5: the finalized `missingPct` equals
`missing_counts c / totalRows * 100` whenever at least one row was
ingested, and equals 0 for the empty ingestion history — the zero-row
guard means the division is never reached with a zero denominator. -/
theorem missingPct_zero_guard (head : Nat) (cols : List String) (rows : List Row)
    (c : String) :
    (rows = [] → missingPct (runProfiler head cols rows) c = 0) ∧
    (rows ≠ [] →
      missingPct (runProfiler head cols rows) c =
        ((runProfiler head cols rows).stats.missing_counts c : ℚ) /
          (rows.length : ℚ) * 100) := by
  constructor
  · intro hnil
    subst hnil
    rfl
  · intro hne
    have hlen : (runProfiler head cols rows).row_count = rows.length :=
      runProfiler_rowcount head cols rows
    have hpos : 0 < (runProfiler head cols rows).row_count := by
      rw [hlen]
      exact List.length_pos.mpr hne
    unfold missingPct
    rw [if_pos hpos, hlen]

/-- Witness for C5: one missing value out of two rows gives 50 percent. -/
theorem missingPct_zero_guard_witness :
    missingPct (runProfiler 5 ["a"] [[("a", some "")], [("a", some "x")]]) "a" =
      ((runProfiler 5 ["a"] [[("a", some "")], [("a", some "x")]]).stats.missing_counts "a" : ℚ) /
        ((2 : Nat) : ℚ) * 100 :=
  (missingPct_zero_guard 5 ["a"] [[("a", some "")], [("a", some "x")]] "a").2 (by decide)

/-- C6: `is_missing` holds exactly on the strings whose characters are
all whitespace — equivalently, the strings that strip to empty; in
particular every whitespace-only string is classified as missing. -/
theorem is_missing_iff_whitespace (value : String) :
    is_missing value = true ↔ ∀ ch ∈ value.data, isSpaceChar ch = true := by
  unfold is_missing pyStrip
  rw [beq_iff_eq]
  constructor
  · intro heq ch hch
    have hdata : ((value.data.dropWhile isSpaceChar).reverse.dropWhile isSpaceChar).reverse =
        ([] : List Char) := String.data_eq_of_eq heq
    have h1 : (value.data.dropWhile isSpaceChar).reverse.dropWhile isSpaceChar = [] :=
      List.reverse_eq_nil_iff.mp hdata
    have h2 : ∀ x ∈ (value.data.dropWhile isSpaceChar).reverse, isSpaceChar x :=
      List.dropWhile_eq_nil_iff.mp h1
    have hsplit : ch ∈ value.data.takeWhile isSpaceChar ++ value.data.dropWhile isSpaceChar := by
      rw [List.takeWhile_append_dropWhile]
      exact hch
    rcases List.mem_append.mp hsplit with hmem | hmem
    · exact List.mem_takeWhile_imp hmem
    · exact h2 ch (List.mem_reverse.mpr hmem)
  · intro h
    have h1 : value.data.dropWhile isSpaceChar = [] := List.dropWhile_eq_nil_iff.mpr h
    rw [h1]
    rfl

/-- C7: a field absent from the row, or present with a null value, is
treated exactly as the empty string: it coerces to `""`, the ingest of
that column behaves as on a row without the field, it is counted as
missing, and it leaves `non_missing_seen` and `numeric_possible`
completely untouched. -/
theorem absent_or_null_as_empty (row : Row) (c : String) (st : ColStats)
    (h : rowLookup row c = none ∨ rowLookup row c = some none) :
    getVal row c = "" ∧
    ingestCol row st c = ingestCol [] st c ∧
    (ingestCol row st c).missing_counts c = st.missing_counts c + 1 ∧
    (ingestCol row st c).non_missing_seen = st.non_missing_seen ∧
    (ingestCol row st c).numeric_possible = st.numeric_possible := by
  have hval : getVal row c = "" := by
    unfold getVal
    rcases h with h | h <;> rw [h]
  have hempty : getVal ([] : Row) c = "" := rfl
  have hmiss : is_missing "" = true := rfl
  refine ⟨hval, ?_, ?_, ?_, ?_⟩ <;>
    simp [ingestCol, hval, hempty, hmiss, upd]

/-- Witness for C7: the column `"a"` is absent from the row
`[("b", "1")]`, and `initStats` records it as missing. -/
theorem absent_or_null_as_empty_witness :
    getVal [("b", some "1")] "a" = "" ∧
    ingestCol [("b", some "1")] initStats "a" = ingestCol [] initStats "a" ∧
    (ingestCol [("b", some "1")] initStats "a").missing_counts "a" =
      initStats.missing_counts "a" + 1 ∧
    (ingestCol [("b", some "1")] initStats "a").non_missing_seen =
      initStats.non_missing_seen ∧
    (ingestCol [("b", some "1")] initStats "a").numeric_possible =
      initStats.numeric_possible :=
  absent_or_null_as_empty [("b", some "1")] "a" initStats (Or.inl (by decide))

/-- C8 counterexample: a blank first line is a header row yielding zero
columns (`fieldnames == []`, not `None`), yet the guard of source lines
82-83 does not fire: the pass runs, the row counter is incremented and
an (empty-schema) report state is produced instead of the fatal error. -/
theorem counter_empty_header_accepted :
    fieldnamesOf [[], ["1", "2"]] = some [] ∧
    profileMain 5 (fieldnamesOf [[], ["1", "2"]]) [[]] =
      Except.ok (runProfiler 5 [] [[]]) ∧
    (runProfiler 5 [] [[]]).row_count = 1 :=
  ⟨rfl, rfl, rfl⟩

/-- C8 (amended): the fatal error fires exactly when no header row could
be read at all (`reader.fieldnames is None`, i.e. the raw stream is
empty); in that case the outcome is the error message alone, independent
of any data rows, so nothing is ingested.  A header row that yields the
empty column list is accepted and profiled. -/
theorem emptySchema_guard (head : Nat) (fn : Option (List String)) (rows : List Row)
    (rawRows : List (List String)) :
    (fn = none → profileMain head fn rows = Except.error emptySchemaMsg) ∧
    (fn = none → ∀ rows2 : List Row, profileMain head fn rows = profileMain head fn rows2) ∧
    (∀ cols, fn = some cols →
      profileMain head fn rows = Except.ok (runProfiler head cols rows)) ∧
    (fieldnamesOf rawRows = none ↔ rawRows = []) := by
  refine ⟨?_, ?_, ?_, ?_⟩
  · intro hnone
    rw [hnone]
    rfl
  · intro hnone rows2
    rw [hnone]
    rfl
  · intro cols hsome
    rw [hsome]
    rfl
  · unfold fieldnamesOf
    cases rawRows <;> simp

/-- Witness for C8 (amended): the empty raw stream has no header and
the run aborts with the fatal message. -/
theorem emptySchema_guard_witness :
    profileMain 5 none [[("a", some "1")]] = Except.error emptySchemaMsg :=
  (emptySchema_guard 5 none [[("a", some "1")]] []).1 rfl

/-- C9 counterexample: the preview stores the row by reference
(`preview_rows.append(row)`, line 99), so mutating the row object after
capture changes what the captured preview entry reads back as. -/
theorem counter_preview_not_snapshot :
    readPreview demoHeap (capturePreview 1 [] 0) = [[("a", some "1")]] ∧
    readPreview (updHeap demoHeap 0 [("a", some "z")]) (capturePreview 1 [] 0) =
      [[("a", some "z")]] ∧
    readPreview (updHeap demoHeap 0 [("a", some "z")]) (capturePreview 1 [] 0) ≠
      readPreview demoHeap (capturePreview 1 [] 0) := by
  refine ⟨rfl, rfl, by decide⟩

/-- C9 (amended): while the buffer is below `head`, the capture appends
the reference to the row object, so a later mutation of that object is
reflected in the captured preview entry. -/
theorem preview_captures_reference (h : RowHeap) (head : Nat) (prev : List Nat)
    (a : Nat) (r : Row) (hlt : prev.length < head) :
    capturePreview head prev a = prev ++ [a] ∧
    readPreview (updHeap h a r) (capturePreview head prev a) =
      readPreview (updHeap h a r) prev ++ [r] := by
  have hcap : capturePreview head prev a = prev ++ [a] := by
    simp [capturePreview, hlt]
  refine ⟨hcap, ?_⟩
  rw [hcap]
  unfold readPreview
  rw [List.map_append]
  simp [updHeap]

/-- Witness for C9 (amended) at the concrete heap. -/
theorem preview_captures_reference_witness :
    capturePreview 1 [] 0 = [] ++ [0] ∧
    readPreview (updHeap demoHeap 0 [("a", some "z")]) (capturePreview 1 [] 0) =
      readPreview (updHeap demoHeap 0 [("a", some "z")]) [] ++ [[("a", some "z")]] :=
  preview_captures_reference demoHeap 1 [] 0 [("a", some "z")] (by decide)

/-- C10: the accumulated statistics, the row count and the derived
summary values are identical across two runs that differ only in the
preview bound `head`: the preview capture has no effect on any
statistic. -/
theorem stats_independent_of_head (h1 h2 : Nat) (cols : List String) (rows : List Row) :
    (runProfiler h1 cols rows).stats = (runProfiler h2 cols rows).stats ∧
    (runProfiler h1 cols rows).row_count = (runProfiler h2 cols rows).row_count ∧
    (∀ c, missingPct (runProfiler h1 cols rows) c =
        missingPct (runProfiler h2 cols rows) c ∧
      inferredType (runProfiler h1 cols rows) c =
        inferredType (runProfiler h2 cols rows) c) := by
  have key : ∀ (rs : List Row) (s1 s2 : ProfState), s1.stats = s2.stats →
      s1.row_count = s2.row_count →
      (rs.foldl (ingest h1 cols) s1).stats = (rs.foldl (ingest h2 cols) s2).stats ∧
      (rs.foldl (ingest h1 cols) s1).row_count = (rs.foldl (ingest h2 cols) s2).row_count := by
    intro rs
    induction rs with
    | nil => exact fun s1 s2 hs hr => ⟨hs, hr⟩
    | cons r rest ih =>
      intro s1 s2 hs hr
      refine ih _ _ ?_ ?_
      · show (cols.foldl (ingestCol r) s1.stats) = (cols.foldl (ingestCol r) s2.stats)
        rw [hs]
      · show s1.row_count + 1 = s2.row_count + 1
        rw [hr]
  have hmain := key rows initState initState rfl rfl
  have hs : (runProfiler h1 cols rows).stats = (runProfiler h2 cols rows).stats := hmain.1
  have hrc : (runProfiler h1 cols rows).row_count = (runProfiler h2 cols rows).row_count :=
    hmain.2
  refine ⟨hs, hrc, ?_⟩
  intro c
  constructor
  · unfold missingPct
    rw [hs, hrc]
  · unfold inferredType
    rw [hs]
